import Mathlib

set_option maxRecDepth 8000

/-!
Verification of the retry-with-backoff helper (`src/clients/retry.ts`).

The embedding models JavaScript runtime values that the retry helper
probes dynamically (`status`, `code`, `statusCode`, `headers`, error
messages) as the inductive `JSValue`, and models the asynchronous
operation passed to `withRetry` as a function from the invocation index
to its outcome.  `withRetry` itself is translated as a fuel-indexed
recursion whose fuel counts exactly the loop tests `attempt <= maxRetries`
that succeed; besides the final result it records the observable trace:
how many times the operation was invoked, the delay slept before each
retry, and the diagnostic lines written to the error stream.
JavaScript numbers are modelled as integers (every number the helper
manipulates in the verified claims is integral).
-/

/-- Model of a JavaScript runtime value, restricted to the shapes the
retry helper inspects.  An `Error` instance is an object whose
`errorMessage` component is `some`; a plain object has `none` there. -/
inductive JSValue : Type where
  | undef : JSValue
  | nullv : JSValue
  | boolean : Bool → JSValue
  | num : Int → JSValue
  | str : String → JSValue
  | obj : List (String × JSValue) → Option String → JSValue

/-- Model of `value && typeof value === "object"` (note `null` is falsy,
so it never passes this guard in the source). -/
def isObject : JSValue → Bool
  | JSValue.obj _ _ => true
  | _ => false

/-- Model of `value instanceof Error ? value.message : (absent)`. -/
def errMessage : JSValue → Option String
  | JSValue.obj _ m => m
  | _ => none

/-- Model of `Reflect.get(value, key)`: the property value when present,
`undefined` otherwise. -/
def jsGet (v : JSValue) (key : String) : JSValue :=
  match v with
  | JSValue.obj fields _ =>
    match List.lookup key fields with
    | some x => x
    | none => JSValue.undef
  | _ => JSValue.undef

/-- Model of the nullish-coalescing operator `a ?? b`. -/
def jsNullish (a b : JSValue) : JSValue :=
  match a with
  | JSValue.undef => b
  | JSValue.nullv => b
  | _ => a

/-- Model of `String.prototype.toLowerCase` (ASCII, which covers every
string the helper compares). -/
def jsToLower (s : String) : String := String.mk (s.toList.map Char.toLower)

/-- Helper for substring search on character lists. -/
def containsSub (pat : List Char) : List Char → Bool
  | [] => pat.isEmpty
  | c :: rest => List.isPrefixOf pat (c :: rest) || containsSub pat rest

/-- Model of `s.includes(pat)`. -/
def strIncludes (s pat : String) : Bool := containsSub pat.toList s.toList

/-- Whitespace characters skipped by `Number.parseInt`. -/
def isJsWhitespace (c : Char) : Bool :=
  c == ' ' || c == '\t' || c == '\n' || c == '\r' || c == '\x0b' || c == '\x0c'

/-- Digit-list to natural number accumulator. -/
def digitsToNat (ds : List Char) : Nat :=
  List.foldl (fun acc c => acc * 10 + (c.toNat - 48)) 0 ds

/-- Model of `Number.parseInt(s, 10)`: skip leading whitespace, read an
optional sign, then the longest leading run of decimal digits; the
result is `none` (NaN) when that run is empty, and otherwise the signed
integer denoted by the run (trailing characters are ignored). -/
def parseIntBase10 (s : String) : Option Int :=
  let cs := List.dropWhile isJsWhitespace s.toList
  let signed : Bool × List Char :=
    match cs with
    | '-' :: t => (true, t)
    | '+' :: t => (false, t)
    | t => (false, t)
  let ds := List.takeWhile Char.isDigit signed.2
  if ds.isEmpty then none
  else
    let n : Int := (digitsToNat ds : Nat)
    some (if signed.1 then -n else n)

/-- The set `RETRYABLE_STATUS_CODES` from the source. -/
def RETRYABLE_STATUS_CODES : List Int := [408, 429, 500, 502, 503, 504]

/-- `isRetryableStatusCode` from the source (`Set.has` becomes list
membership). -/
def isRetryableStatusCode (statusCode : Int) : Bool :=
  decide (statusCode ∈ RETRYABLE_STATUS_CODES)

/-- Model of `typeof v === "number" && isRetryableStatusCode(v)`. -/
def numericRetryable (v : JSValue) : Bool :=
  match v with
  | JSValue.num n => isRetryableStatusCode n
  | _ => false

/-- The message-substring probe of `defaultIsRetryable`, applied to the
message of an `Error` instance (absent for non-`Error` values). -/
def retryableMessage : Option String → Bool
  | some message =>
    strIncludes (jsToLower message) "timeout" ||
    strIncludes (jsToLower message) "econnreset" ||
    strIncludes (jsToLower message) "econnrefused" ||
    strIncludes (jsToLower message) "socket hang up" ||
    strIncludes (jsToLower message) "network" ||
    strIncludes (jsToLower message) "request_timeout"
  | none => false

/-- `defaultIsRetryable` from the source: the early-`return true` blocks
become a disjunction.  The first block runs only for (truthy) objects and
probes `status ?? code` and then `statusCode`; the second block runs for
`Error` instances and matches message substrings. -/
def defaultIsRetryable (error : JSValue) : Bool :=
  (if isObject error then
    numericRetryable (jsNullish (jsGet error "status") (jsGet error "code")) ||
    numericRetryable (jsGet error "statusCode")
  else false) ||
  retryableMessage (errMessage error)

/-- `defaultGetRetryAfterMs` from the source: for a (truthy) object whose
`headers` field is a (truthy) object, read `retry-after ?? Retry-After`;
a string is parsed with `Number.parseInt(_, 10)` (NaN falls through to
the number test, which then fails, giving `null`); a number is used
directly; anything else gives `null`.  Seconds are converted to
milliseconds by multiplying by 1000. -/
def defaultGetRetryAfterMs (error : JSValue) : Option Int :=
  if isObject error = false then none
  else
    let headers := jsGet error "headers"
    if isObject headers then
      match jsNullish (jsGet headers "retry-after") (jsGet headers "Retry-After") with
      | JSValue.str s =>
        (match parseIntBase10 s with
         | some seconds => some (seconds * 1000)
         | none => none)
      | JSValue.num retryAfter => some (retryAfter * 1000)
      | _ => none
    else none

/-- `RetryOptions` with the defaults of `DEFAULT_RETRY_OPTIONS` and of the
destructuring in `withRetry`.  `maxRetries` is an `Int` so that the
malformed negative configuration (claim C8) is representable. -/
structure RetryOptions : Type where
  maxRetries : Int := 10
  initialDelayMs : Int := 1000
  maxDelayMs : Int := 30000
  isRetryable : JSValue → Bool := defaultIsRetryable
  getRetryAfterMs : JSValue → Option Int := defaultGetRetryAfterMs
  label : Option String := none

/-- Outcome of one invocation of the wrapped operation: the promise either
resolves with a value or rejects with a JavaScript value. -/
inductive Outcome (T : Type) : Type where
  | ok : T → Outcome T
  | err : JSValue → Outcome T

/-- Observable behaviour of one call to `withRetry`: final result, number
of invocations of the operation, the delays slept before each retry (in
order), and the diagnostic lines printed to the error stream. -/
structure RetryResult (T : Type) : Type where
  result : Outcome T
  invocations : Nat
  delays : List Int
  logs : List String

/-- Model of the label prefix `` label ? `${label}: ` : "" `` (the empty
string is falsy in JavaScript). -/
def labelPart (label : Option String) : String :=
  match label with
  | some l => if l.isEmpty then "" else l ++ ": "
  | none => ""

/-- The delay computed before a retry:
`Math.min(getRetryAfterMs(error) ?? initialDelayMs * 2 ** attempt, maxDelayMs)`. -/
def retryDelay (o : RetryOptions) (error : JSValue) (attempt : Nat) : Int :=
  min (Option.getD (o.getRetryAfterMs error) (o.initialDelayMs * 2 ^ attempt)) o.maxDelayMs

/-- The diagnostic line printed before a retry. -/
def retryLine (o : RetryOptions) (error : JSValue) (attempt : Nat) : String :=
  labelPart o.label ++ "Transient error, retrying in " ++
  toString (retryDelay o error attempt) ++ "ms (attempt " ++
  toString (attempt + 1) ++ "/" ++ toString o.maxRetries ++ ")"

/-- The loop body of `withRetry`.  `fuel` counts the loop tests
`attempt <= maxRetries` that still succeed (so it is `maxRetries + 1 - attempt`
clamped at zero); when it reaches zero the loop exits and `throw lastError`
runs.  Inside an iteration: invoke the operation; on success return its
value; on failure record it, re-raise it when not retryable or when the
budget is exhausted, and otherwise log, sleep the computed delay and
continue with the next attempt. -/
def withRetryGo {T : Type} (fn : Nat → Outcome T) (o : RetryOptions) :
    Nat → Nat → JSValue → RetryResult T
  | _, 0, lastError => ⟨Outcome.err lastError, 0, [], []⟩
  | attempt, fuel + 1, _ =>
    match fn attempt with
    | Outcome.ok v => ⟨Outcome.ok v, 1, [], []⟩
    | Outcome.err e =>
      if o.isRetryable e = false then ⟨Outcome.err e, 1, [], []⟩
      else if (attempt : Int) = o.maxRetries then ⟨Outcome.err e, 1, [], []⟩
      else
        ⟨(withRetryGo fn o (attempt + 1) fuel e).result,
         (withRetryGo fn o (attempt + 1) fuel e).invocations + 1,
         retryDelay o e attempt :: (withRetryGo fn o (attempt + 1) fuel e).delays,
         retryLine o e attempt :: (withRetryGo fn o (attempt + 1) fuel e).logs⟩

/-- `withRetry` from the source.  The operation is modelled as a function
from the invocation index (0-based) to that invocation's outcome; the
loop starts at attempt 0 with `lastError` still `undefined`, and the
number of successful loop tests is `(maxRetries + 1).toNat` (zero when
`maxRetries` is negative). -/
def withRetry {T : Type} (fn : Nat → Outcome T) (o : RetryOptions) : RetryResult T :=
  withRetryGo fn o 0 (o.maxRetries + 1).toNat JSValue.undef

/-- Unfolding equation for the loop exit (`throw lastError`). -/
theorem withRetryGo_zero {T : Type} (fn : Nat → Outcome T) (o : RetryOptions)
    (attempt : Nat) (lastError : JSValue) :
    withRetryGo fn o attempt 0 lastError = ⟨Outcome.err lastError, 0, [], []⟩ := rfl

/-- Unfolding equation for one loop iteration. -/
theorem withRetryGo_succ {T : Type} (fn : Nat → Outcome T) (o : RetryOptions)
    (attempt fuel : Nat) (lastError : JSValue) :
    withRetryGo fn o attempt (fuel + 1) lastError =
      match fn attempt with
      | Outcome.ok v => ⟨Outcome.ok v, 1, [], []⟩
      | Outcome.err e =>
        if o.isRetryable e = false then ⟨Outcome.err e, 1, [], []⟩
        else if (attempt : Int) = o.maxRetries then ⟨Outcome.err e, 1, [], []⟩
        else
          ⟨(withRetryGo fn o (attempt + 1) fuel e).result,
           (withRetryGo fn o (attempt + 1) fuel e).invocations + 1,
           retryDelay o e attempt :: (withRetryGo fn o (attempt + 1) fuel e).delays,
           retryLine o e attempt :: (withRetryGo fn o (attempt + 1) fuel e).logs⟩ := rfl

/-- Shifting a cons of a mapped range by one: the sequence of values at
attempts `a, a+1, ..., a+m` is the range map of the shifted index. -/
theorem range_map_shift {α : Type} (g : Nat → α) (a m : Nat) :
    g a :: (List.range m).map (fun j => g (a + 1 + j)) =
    (List.range (m + 1)).map (fun j => g (a + j)) := by
  rw [List.range_succ_eq_map, List.map_cons, List.map_map, Nat.add_zero]
  refine congrArg (List.cons (g a)) ?_
  apply List.map_congr_left
  intro j _
  simp only [Function.comp_apply, Nat.succ_eq_add_one]
  congr 1
  omega

/-- The delay trace shift, specialised from `range_map_shift`. -/
theorem delays_shift (o : RetryOptions) (e : Nat → JSValue) (a m : Nat) :
    retryDelay o (e a) a ::
      (List.range m).map (fun j => retryDelay o (e (a + 1 + j)) (a + 1 + j)) =
    (List.range (m + 1)).map (fun j => retryDelay o (e (a + j)) (a + j)) :=
  range_map_shift (fun k => retryDelay o (e k) k) a m

/-- The log trace shift, specialised from `range_map_shift`. -/
theorem logs_shift (o : RetryOptions) (e : Nat → JSValue) (a m : Nat) :
    retryLine o (e a) a ::
      (List.range m).map (fun j => retryLine o (e (a + 1 + j)) (a + 1 + j)) =
    (List.range (m + 1)).map (fun j => retryLine o (e (a + j)) (a + j)) :=
  range_map_shift (fun k => retryLine o (e k) k) a m

/-- Element access inside a mapped range. -/
theorem getD_range_map {α : Type} [Inhabited α] (f : Nat → α) (N j : Nat) (h : j < N) :
    ((List.range N).map f).getD j default = f j := by
  induction N generalizing f j with
  | zero => omega
  | succ N ih =>
    rw [List.range_succ_eq_map]
    cases j with
    | zero => simp
    | succ j =>
      simp only [List.map_cons, List.map_map, List.getD_cons_succ]
      have h2 := ih (fun x => f (x + 1)) j (by omega)
      have hfun : (f ∘ Nat.succ) = fun x => f (x + 1) := by
        funext x
        simp [Function.comp, Nat.succ_eq_add_one]
      rw [hfun]
      exact h2

/-- When every invocation fails with a failure the predicate accepts, the
loop as started at attempt `a` with budget `maxRetries = a + m` performs
the remaining `m` retries, invokes the operation `m + 1` times, and ends
by re-raising the failure of attempt `a + m`. -/
theorem go_allFail {T : Type} (fn : Nat → Outcome T) (o : RetryOptions) (e : Nat → JSValue)
    (hfn : ∀ k, fn k = Outcome.err (e k)) (hr : ∀ k, o.isRetryable (e k) = true) :
    ∀ (m a : Nat) (lastError : JSValue), o.maxRetries = ((a + m : Nat) : Int) →
      withRetryGo fn o a (m + 1) lastError =
        ⟨Outcome.err (e (a + m)), m + 1,
         (List.range m).map (fun j => retryDelay o (e (a + j)) (a + j)),
         (List.range m).map (fun j => retryLine o (e (a + j)) (a + j))⟩ := by
  intro m
  induction m with
  | zero =>
    intro a lastError hmr
    have hpos : ((a : Int)) = o.maxRetries := by rw [hmr]; omega
    rw [withRetryGo_succ, hfn a]
    simp [hr a, hpos]
  | succ m ih =>
    intro a lastError hmr
    have hne : ¬ ((a : Int) = o.maxRetries) := by rw [hmr]; omega
    have hmr2 : o.maxRetries = (((a + 1) + m : Nat) : Int) := by rw [hmr]; omega
    rw [withRetryGo_succ, hfn a]
    simp only [hr a, Bool.true_eq_false, if_false, hne, if_true, ih (a + 1) (e a) hmr2]
    rw [show a + 1 + m = a + (m + 1) by omega, ← delays_shift o e a m, ← logs_shift o e a m]

/-- Full characterisation of `withRetry` when `maxRetries = N` and every
invocation fails with a failure the predicate accepts: the failure of
invocation `N` (0-based) is re-raised after `N + 1` invocations, with the
delay and log traces ranging over attempts `0 .. N-1`. -/
theorem withRetry_allFail {T : Type} (fn : Nat → Outcome T) (o : RetryOptions)
    (e : Nat → JSValue) (N : Nat) (hmr : o.maxRetries = (N : Int))
    (hfn : ∀ k, fn k = Outcome.err (e k)) (hr : ∀ k, o.isRetryable (e k) = true) :
    withRetry fn o =
      ⟨Outcome.err (e N), N + 1,
       (List.range N).map (fun j => retryDelay o (e j) j),
       (List.range N).map (fun j => retryLine o (e j) j)⟩ := by
  have hfuel : (o.maxRetries + 1).toNat = N + 1 := by rw [hmr]; omega
  have h := go_allFail fn o e hfn hr N 0 JSValue.undef (by rw [hmr]; omega)
  simp only [Nat.zero_add] at h
  show withRetryGo fn o 0 ((o.maxRetries + 1).toNat) JSValue.undef = _
  rw [hfuel]
  exact h

/-- Iteration equation when the invocation succeeds. -/
theorem withRetryGo_succ_ok {T : Type} (fn : Nat → Outcome T) (o : RetryOptions)
    (attempt fuel : Nat) (lastError : JSValue) (v : T)
    (hfa : fn attempt = Outcome.ok v) :
    withRetryGo fn o attempt (fuel + 1) lastError = ⟨Outcome.ok v, 1, [], []⟩ := by
  rw [withRetryGo_succ, hfa]

/-- Iteration equation when the invocation fails. -/
theorem withRetryGo_succ_err {T : Type} (fn : Nat → Outcome T) (o : RetryOptions)
    (attempt fuel : Nat) (lastError : JSValue) (e : JSValue)
    (hfa : fn attempt = Outcome.err e) :
    withRetryGo fn o attempt (fuel + 1) lastError =
      (if o.isRetryable e = false then ⟨Outcome.err e, 1, [], []⟩
       else if (attempt : Int) = o.maxRetries then ⟨Outcome.err e, 1, [], []⟩
       else
         ⟨(withRetryGo fn o (attempt + 1) fuel e).result,
          (withRetryGo fn o (attempt + 1) fuel e).invocations + 1,
          retryDelay o e attempt :: (withRetryGo fn o (attempt + 1) fuel e).delays,
          retryLine o e attempt :: (withRetryGo fn o (attempt + 1) fuel e).logs⟩) := by
  rw [withRetryGo_succ, hfa]

/-- Each recorded delay is the one computed from the failure of the same
attempt: if attempt `a + i` failed with `e` and the trace contains an
`i`-th delay, that delay is `retryDelay` of `e` at exponent `a + i`. -/
theorem go_delays_getD {T : Type} (fn : Nat → Outcome T) (o : RetryOptions) :
    ∀ (fuel a : Nat) (lastError : JSValue) (i : Nat) (e : JSValue),
      i < (withRetryGo fn o a fuel lastError).delays.length →
      fn (a + i) = Outcome.err e →
      (withRetryGo fn o a fuel lastError).delays.getD i 0 = retryDelay o e (a + i) := by
  intro fuel
  induction fuel with
  | zero =>
    intro a lastError i e hi _
    rw [withRetryGo_zero] at hi
    simp at hi
  | succ fuel ih =>
    intro a lastError i e hi hfe
    cases hfa : fn a with
    | ok v =>
      rw [withRetryGo_succ_ok fn o a fuel lastError v hfa] at hi
      simp at hi
    | err e0 =>
      rw [withRetryGo_succ_err fn o a fuel lastError e0 hfa] at hi ⊢
      by_cases hret : o.isRetryable e0 = false
      · rw [if_pos hret] at hi
        simp at hi
      · rw [if_neg hret] at hi ⊢
        by_cases hbud : ((a : Int) = o.maxRetries)
        · rw [if_pos hbud] at hi
          simp at hi
        · rw [if_neg hbud] at hi ⊢
          cases i with
          | zero =>
            have he : e = e0 := by
              have h0 : fn a = Outcome.err e := by
                rw [show a = a + 0 by omega]
                exact hfe
              rw [h0] at hfa
              injection hfa
            simp [he]
          | succ i =>
            simp only [List.getD_cons_succ]
            have hi2 : i < (withRetryGo fn o (a + 1) fuel e0).delays.length := by
              simp only [List.length_cons] at hi
              omega
            have hfe2 : fn ((a + 1) + i) = Outcome.err e := by
              rw [show (a + 1) + i = a + (i + 1) by omega]
              exact hfe
            have h := ih (a + 1) e0 i e hi2 hfe2
            rw [show a + (i + 1) = (a + 1) + i by omega]
            exact h

/-- Per-retry delay rule lifted to `withRetry`. -/
theorem withRetry_delays_getD {T : Type} (fn : Nat → Outcome T) (o : RetryOptions)
    (i : Nat) (e : JSValue) (hi : i < (withRetry fn o).delays.length)
    (hfe : fn i = Outcome.err e) :
    (withRetry fn o).delays.getD i 0 = retryDelay o e i := by
  have h := go_delays_getD fn o ((o.maxRetries + 1).toNat) 0 JSValue.undef i e
  simp only [Nat.zero_add] at h
  exact h hi hfe

/-- A non-retryable failure on the first invocation is re-raised at once
(provided the loop is entered at all, i.e. `maxRetries` is non-negative). -/
theorem withRetry_nonretryable {T : Type} (fn : Nat → Outcome T) (o : RetryOptions)
    (e : JSValue) (hmr : 0 ≤ o.maxRetries) (hf : fn 0 = Outcome.err e)
    (hnr : o.isRetryable e = false) :
    withRetry fn o = ⟨Outcome.err e, 1, [], []⟩ := by
  obtain ⟨m, hm⟩ : ∃ m, (o.maxRetries + 1).toNat = m + 1 := ⟨o.maxRetries.toNat, by omega⟩
  show withRetryGo fn o 0 ((o.maxRetries + 1).toNat) JSValue.undef = _
  rw [hm, withRetryGo_succ, hf]
  simp [hnr]

/-- A first invocation that succeeds returns its value at once (provided
the loop is entered at all, i.e. `maxRetries` is non-negative). -/
theorem withRetry_firstSuccess {T : Type} (fn : Nat → Outcome T) (o : RetryOptions)
    (v : T) (hmr : 0 ≤ o.maxRetries) (hf : fn 0 = Outcome.ok v) :
    withRetry fn o = ⟨Outcome.ok v, 1, [], []⟩ := by
  obtain ⟨m, hm⟩ : ∃ m, (o.maxRetries + 1).toNat = m + 1 := ⟨o.maxRetries.toNat, by omega⟩
  show withRetryGo fn o 0 ((o.maxRetries + 1).toNat) JSValue.undef = _
  rw [hm, withRetryGo_succ, hf]

/-- With a negative (malformed) `maxRetries` the loop condition fails at
entry: the operation is never invoked and `throw lastError` re-raises the
still-`undefined` last-error slot. -/
theorem withRetry_negBudget {T : Type} (fn : Nat → Outcome T) (o : RetryOptions)
    (h : o.maxRetries < 0) :
    withRetry fn o = ⟨Outcome.err JSValue.undef, 0, [], []⟩ := by
  have hfuel : (o.maxRetries + 1).toNat = 0 := by omega
  show withRetryGo fn o 0 ((o.maxRetries + 1).toNat) JSValue.undef = _
  rw [hfuel, withRetryGo_zero]

/-- The message fragments of the spec sentence: a failure message is
retryable when, lower-cased, it contains one of these. -/
def retryMessageFragments : List String :=
  ["timeout", "econnreset", "econnrefused", "socket hang up", "network",
   "request_timeout"]

/-- Spec reading of clause (a) of C5: the failure is an object carrying a
numeric status code in {408, 429, 500, 502, 503, 504}, looked up under
`status` (falling back to `code` when that is absent or null) or under
`statusCode`. -/
def claim5StatusCond (e : JSValue) : Prop :=
  isObject e = true ∧
  ∃ n : Int,
    (jsNullish (jsGet e "status") (jsGet e "code") = JSValue.num n ∨
     jsGet e "statusCode" = JSValue.num n) ∧
    (n = 408 ∨ n = 429 ∨ n = 500 ∨ n = 502 ∨ n = 503 ∨ n = 504)

/-- Spec reading of clause (b) of C5: the failure is an error whose
message, compared case-insensitively, contains one of the fragments. -/
def claim5MessageCond (e : JSValue) : Prop :=
  ∃ m : String, errMessage e = some m ∧
    ∃ frag ∈ retryMessageFragments, strIncludes (jsToLower m) frag = true

/-- The numeric probe succeeds exactly on a retryable status number. -/
theorem numericRetryable_iff (v : JSValue) :
    numericRetryable v = true ↔
      ∃ n : Int, v = JSValue.num n ∧
        (n = 408 ∨ n = 429 ∨ n = 500 ∨ n = 502 ∨ n = 503 ∨ n = 504) := by
  cases v <;>
    simp [numericRetryable, isRetryableStatusCode, RETRYABLE_STATUS_CODES]

/-- The message probe succeeds exactly when some fragment occurs in the
lower-cased message. -/
theorem retryableMessage_iff (om : Option String) :
    retryableMessage om = true ↔
      ∃ m, om = some m ∧
        ∃ frag ∈ retryMessageFragments, strIncludes (jsToLower m) frag = true := by
  cases om with
  | none => simp [retryableMessage]
  | some m =>
    simp only [retryableMessage, Bool.or_eq_true, Option.some.injEq]
    constructor
    · intro h
      refine ⟨m, rfl, ?_⟩
      rcases h with ((((h | h) | h) | h) | h) | h
      · exact ⟨"timeout", by simp [retryMessageFragments], h⟩
      · exact ⟨"econnreset", by simp [retryMessageFragments], h⟩
      · exact ⟨"econnrefused", by simp [retryMessageFragments], h⟩
      · exact ⟨"socket hang up", by simp [retryMessageFragments], h⟩
      · exact ⟨"network", by simp [retryMessageFragments], h⟩
      · exact ⟨"request_timeout", by simp [retryMessageFragments], h⟩
    · rintro ⟨m2, hm2, frag, hfrag, h⟩
      cases hm2
      simp only [retryMessageFragments, List.mem_cons, List.not_mem_nil, or_false] at hfrag
      rcases hfrag with rfl | rfl | rfl | rfl | rfl | rfl <;> simp [h]

/-- Values that are not objects have no `Error` message in the model. -/
theorem errMessage_none_of_not_obj (e : JSValue) (h : isObject e = false) :
    errMessage e = none := by
  cases e <;> simp_all [errMessage, isObject]

/-- Claim C5: the default retryability predicate returns true for a
failure if and only if either (a) the failure carries a numeric
status/error code equal to one of {408, 429, 500, 502, 503, 504}, checked
under the `status` key (falling back to `code`) or the `statusCode` key,
or (b) it is an error whose message, compared case-insensitively,
contains one of "timeout", "econnreset", "econnrefused",
"socket hang up", "network", "request_timeout"; every other failure
yields false. -/
theorem claim5_defaultIsRetryable_characterisation (e : JSValue) :
    defaultIsRetryable e = true ↔ claim5StatusCond e ∨ claim5MessageCond e := by
  unfold defaultIsRetryable claim5StatusCond claim5MessageCond
  cases hobj : isObject e
  · rw [errMessage_none_of_not_obj e hobj]
    simp [retryableMessage]
  · simp only [if_true, Bool.or_eq_true, numericRetryable_iff, retryableMessage_iff,
      true_and]
    constructor
    · rintro ((⟨n, hn, hc⟩ | ⟨n, hn, hc⟩) | ⟨m, hm, hfr⟩)
      · exact Or.inl ⟨n, Or.inl hn, hc⟩
      · exact Or.inl ⟨n, Or.inr hn, hc⟩
      · exact Or.inr ⟨m, hm, hfr⟩
    · rintro (⟨n, hn | hn, hc⟩ | ⟨m, hm, hfr⟩)
      · exact Or.inl (Or.inl ⟨n, hn, hc⟩)
      · exact Or.inl (Or.inr ⟨n, hn, hc⟩)
      · exact Or.inr ⟨m, hm, hfr⟩

/-- A base-10 integer string in the strict sense of claim C6: an optional
sign followed by one or more decimal digits, nothing else. -/
def isIntegerString (s : String) : Bool :=
  match s.toList with
  | '-' :: t => !t.isEmpty && t.all Char.isDigit
  | '+' :: t => !t.isEmpty && t.all Char.isDigit
  | t => !t.isEmpty && t.all Char.isDigit

/-- Claim C6 as stated: a hint is returned exactly when the coalesced
`retry-after`/`Retry-After` header value is a number or a base-10 integer
string (strict sense), the hint being that value times 1000. -/
def claim6StatedHint (e : JSValue) : Option Int :=
  if isObject e then
    if isObject (jsGet e "headers") then
      match jsNullish (jsGet (jsGet e "headers") "retry-after")
          (jsGet (jsGet e "headers") "Retry-After") with
      | JSValue.num n => some (n * 1000)
      | JSValue.str s =>
        if isIntegerString s then Option.map (fun k => k * 1000) (parseIntBase10 s)
        else none
      | _ => none
    else none
  else none

/-- Claim C6 as amended: same as stated, except that a string value is
accepted whenever `parseInt`-style base-10 leading-prefix parsing extracts
an integer from it (optional whitespace and sign, at least one leading
digit, trailing characters ignored), the hint being that integer times
1000. -/
def claim6AmendedHint (e : JSValue) : Option Int :=
  if isObject e then
    if isObject (jsGet e "headers") then
      match jsNullish (jsGet (jsGet e "headers") "retry-after")
          (jsGet (jsGet e "headers") "Retry-After") with
      | JSValue.num n => some (n * 1000)
      | JSValue.str s => Option.map (fun k => k * 1000) (parseIntBase10 s)
      | _ => none
    else none
  else none

/-- The source hint extractor agrees everywhere with the amended claim. -/
theorem defaultGetRetryAfterMs_eq_amended (e : JSValue) :
    defaultGetRetryAfterMs e = claim6AmendedHint e := by
  unfold defaultGetRetryAfterMs claim6AmendedHint
  cases hobj : isObject e
  · simp
  · simp only [Bool.true_eq_false, if_false, if_true]
    cases hh : isObject (jsGet e "headers")
    · simp
    · simp only [if_true]
      cases hv : jsNullish (jsGet (jsGet e "headers") "retry-after")
          (jsGet (jsGet e "headers") "Retry-After") <;> simp
      cases parseIntBase10 _ <;> simp

/-- A failure carrying `status: 503` (retryable, no retry-after hint). -/
def e503 : JSValue := JSValue.obj [("status", JSValue.num 503)] none

/-- An operation every invocation of which fails with `e503`. -/
def fn503 : Nat → Outcome Nat := fun _ => Outcome.err e503

/-- A failure carrying `status: 404` (not retryable). -/
def e404 : JSValue := JSValue.obj [("status", JSValue.num 404)] none

/-- An operation every invocation of which fails with `e404`. -/
def fn404 : Nat → Outcome Nat := fun _ => Outcome.err e404

/-- Options with a retry budget of 2 and defaults otherwise. -/
def optsTwo : RetryOptions := {maxRetries := 2}

/-- Options with a retry budget of 3 and defaults otherwise. -/
def optsThree : RetryOptions := {maxRetries := 3}

/-- Claim C1: for every policy with `maxRetries = N` (`N` non-negative)
and every operation whose every invocation fails with a failure the
retryability predicate accepts, `withRetry` invokes the operation exactly
`N + 1` times, propagates the failure produced by the final (`N+1`-th)
invocation, and emits exactly `N` diagnostic lines. -/
theorem claim1_exhausted_budget {T : Type} (fn : Nat → Outcome T) (o : RetryOptions)
    (e : Nat → JSValue) (N : Nat) (hmr : o.maxRetries = (N : Int))
    (hfn : ∀ k, fn k = Outcome.err (e k)) (hr : ∀ k, o.isRetryable (e k) = true) :
    (withRetry fn o).invocations = N + 1 ∧
    (withRetry fn o).result = Outcome.err (e N) ∧
    (withRetry fn o).logs.length = N := by
  rw [withRetry_allFail fn o e N hmr hfn hr]
  simp

/-- Witness for C1: `status: 503` failures with a budget of 2 give 3
invocations, the third failure back, and 2 diagnostic lines. -/
theorem claim1_witness :
    optsTwo.maxRetries = ((2 : Nat) : Int) ∧
    (∀ k : Nat, fn503 k = Outcome.err e503) ∧
    (optsTwo.isRetryable e503 = true) ∧
    (withRetry fn503 optsTwo).invocations = 2 + 1 ∧
    (withRetry fn503 optsTwo).result = Outcome.err e503 ∧
    (withRetry fn503 optsTwo).logs.length = 2 := by
  have h1 : optsTwo.isRetryable e503 = true := by decide
  refine ⟨rfl, fun _ => rfl, h1, ?_⟩
  exact claim1_exhausted_budget fn503 optsTwo (fun _ => e503) 2 rfl
    (fun _ => rfl) (fun _ => h1)

/-- Claim C2: a failure the retryability predicate rejects is propagated
unchanged after exactly one invocation, with no delay and no diagnostic
line, for every policy in the spec domain (`maxRetries` non-negative). -/
theorem claim2_nonretryable_fails_fast {T : Type} (fn : Nat → Outcome T)
    (o : RetryOptions) (e : JSValue) (hmr : 0 ≤ o.maxRetries)
    (hf : fn 0 = Outcome.err e) (hnr : o.isRetryable e = false) :
    withRetry fn o = ⟨Outcome.err e, 1, [], []⟩ :=
  withRetry_nonretryable fn o e hmr hf hnr

/-- Witness for C2: a `status: 404` failure under the default options. -/
theorem claim2_witness :
    (0 : Int) ≤ ({} : RetryOptions).maxRetries ∧
    ({} : RetryOptions).isRetryable e404 = false ∧
    withRetry fn404 {} = ⟨Outcome.err e404, 1, [], []⟩ :=
  ⟨by decide, by decide,
   claim2_nonretryable_fails_fast fn404 {} e404 (by decide) rfl (by decide)⟩

/-- Claim C3: for every retry performed by `withRetry`, the delay used is
`min(hint, maxDelayMs)` when the hint extractor returns a hint for the
failure of that attempt, and `min(initialDelayMs * 2 ^ attemptIndex,
maxDelayMs)` when it returns none; any computed delay above `maxDelayMs`
is thereby clamped to `maxDelayMs`. -/
theorem claim3_delay_rule {T : Type} (fn : Nat → Outcome T) (o : RetryOptions)
    (i : Nat) (e : JSValue) (hi : i < (withRetry fn o).delays.length)
    (hfe : fn i = Outcome.err e) :
    (withRetry fn o).delays.getD i 0 =
      min (Option.getD (o.getRetryAfterMs e) (o.initialDelayMs * 2 ^ i)) o.maxDelayMs ∧
    (∀ h : Int, o.getRetryAfterMs e = some h →
      (withRetry fn o).delays.getD i 0 = min h o.maxDelayMs) ∧
    (o.getRetryAfterMs e = none →
      (withRetry fn o).delays.getD i 0 = min (o.initialDelayMs * 2 ^ i) o.maxDelayMs) := by
  have hmain := withRetry_delays_getD fn o i e hi hfe
  unfold retryDelay at hmain
  refine ⟨hmain, fun h hh => ?_, fun hn => ?_⟩
  · rw [hmain, hh, Option.getD_some]
  · rw [hmain, hn, Option.getD_none]

/-- Witness for C3: the first retry with `status: 503` failures (no hint)
under a budget of 2 sleeps `min(1000 * 2 ^ 0, 30000)`. -/
theorem claim3_witness :
    0 < (withRetry fn503 optsTwo).delays.length ∧
    fn503 0 = Outcome.err e503 ∧
    (withRetry fn503 optsTwo).delays.getD 0 0 =
      min (Option.getD (optsTwo.getRetryAfterMs e503)
        (optsTwo.initialDelayMs * 2 ^ 0)) optsTwo.maxDelayMs :=
  ⟨by decide, rfl, (claim3_delay_rule fn503 optsTwo 0 e503 (by decide) rfl).1⟩

/-- Claim C4: with `initialDelayMs = d`, no retry-after hint on any
failure, and the cap never reached, the delays form the doubling sequence
`d, 2d, 4d, ...`: the `k`-th retry (`k = 1..N`) sleeps `d * 2 ^ (k-1)`. -/
theorem claim4_backoff_sequence {T : Type} (fn : Nat → Outcome T) (o : RetryOptions)
    (e : Nat → JSValue) (N : Nat) (d : Int)
    (hmr : o.maxRetries = (N : Int)) (hd : o.initialDelayMs = d)
    (hfn : ∀ k, fn k = Outcome.err (e k)) (hr : ∀ k, o.isRetryable (e k) = true)
    (hnh : ∀ k, o.getRetryAfterMs (e k) = none)
    (hcap : ∀ i, i < N → d * 2 ^ i ≤ o.maxDelayMs) :
    (withRetry fn o).delays = (List.range N).map (fun i => d * 2 ^ i) ∧
    ∀ k, 1 ≤ k → k ≤ N → (withRetry fn o).delays.getD (k - 1) 0 = d * 2 ^ (k - 1) := by
  have hdelays : (withRetry fn o).delays = (List.range N).map (fun i => d * 2 ^ i) := by
    rw [withRetry_allFail fn o e N hmr hfn hr]
    apply List.map_congr_left
    intro i hi
    rw [List.mem_range] at hi
    unfold retryDelay
    rw [hnh i, Option.getD_none, hd]
    exact min_eq_left (hcap i hi)
  refine ⟨hdelays, fun k hk1 hkN => ?_⟩
  rw [hdelays]
  exact getD_range_map (fun i => d * 2 ^ i) N (k - 1) (by omega)

/-- Witness for C4: `status: 503` failures, budget 3, defaults: the
delays are exactly `[1000, 2000, 4000]`. -/
theorem claim4_witness :
    optsThree.maxRetries = ((3 : Nat) : Int) ∧
    optsThree.initialDelayMs = 1000 ∧
    (optsThree.getRetryAfterMs e503 = none) ∧
    (∀ i, i < 3 → (1000 : Int) * 2 ^ i ≤ optsThree.maxDelayMs) ∧
    (withRetry fn503 optsThree).delays =
      (List.range 3).map (fun i => (1000 : Int) * 2 ^ i) := by
  have h1 : optsThree.isRetryable e503 = true := by decide
  have h2 : optsThree.getRetryAfterMs e503 = none := by decide
  have h3 : ∀ i, i < 3 → (1000 : Int) * 2 ^ i ≤ optsThree.maxDelayMs := by decide
  refine ⟨rfl, rfl, h2, h3, ?_⟩
  exact (claim4_backoff_sequence fn503 optsThree (fun _ => e503) 3 1000 rfl rfl
    (fun _ => rfl) (fun _ => h1) (fun _ => h2) h3).1

/-- A failure whose retry-after header is the non-numeral string "5x". -/
def errFiveX : JSValue :=
  JSValue.obj [("headers", JSValue.obj [("retry-after", JSValue.str "5x")] none)] none

/-- The scenario-4 failure: header `retry-after: "5"` and `status: 503`. -/
def errRetryAfterFive : JSValue :=
  JSValue.obj [("status", JSValue.num 503),
               ("headers", JSValue.obj [("retry-after", JSValue.str "5")] none)] none

/-- An operation every invocation of which fails with `errRetryAfterFive`. -/
def fnRetryAfterFive : Nat → Outcome Nat := fun _ => Outcome.err errRetryAfterFive

/-- Options with a retry budget of 4 and an explicit 30000 ms cap. -/
def optsFour : RetryOptions := {maxRetries := 4, maxDelayMs := 30000}

/-- Counterexample to claim C6 as stated: the header value "5x" is not a
base-10 integer string, yet the default extractor returns the hint 5000
(because `Number.parseInt("5x", 10)` parses the leading digit run), so
the "in every other case it returns no hint" half of the claim fails. -/
theorem claim6_counterexample :
    defaultGetRetryAfterMs errFiveX = some 5000 ∧
    isIntegerString "5x" = false ∧
    claim6StatedHint errFiveX = none ∧
    defaultGetRetryAfterMs errFiveX ≠ claim6StatedHint errFiveX := by
  refine ⟨by decide, by decide, by decide, by decide⟩

/-- Claim C6 as amended: the default extractor returns a hint exactly when
the failure carries a `headers` object whose coalesced
`retry-after`/`Retry-After` entry is a number, or a string from which
`parseInt`-style base-10 leading-prefix parsing extracts an integer; the
hint is that value times 1000; otherwise no hint.  Moreover, in the
spec's concrete scenario 4 (header `retry-after: "5"`, `status: 503`,
`maxDelayMs = 30000`), every retry sleeps 5000 ms regardless of the
attempt index. -/
theorem claim6_hint_extractor_amended :
    (∀ e : JSValue, defaultGetRetryAfterMs e = claim6AmendedHint e) ∧
    defaultGetRetryAfterMs errRetryAfterFive = some 5000 ∧
    (withRetry fnRetryAfterFive optsFour).delays = List.replicate 4 5000 := by
  refine ⟨defaultGetRetryAfterMs_eq_amended, by decide, by decide⟩

/-- Claim C7: an operation whose first invocation succeeds with `v` makes
`withRetry` resolve with exactly `v` after a single invocation, zero
delay and zero diagnostic lines, for every policy in the spec domain
(`maxRetries` non-negative). -/
theorem claim7_first_success {T : Type} (fn : Nat → Outcome T) (o : RetryOptions)
    (v : T) (hmr : 0 ≤ o.maxRetries) (hf : fn 0 = Outcome.ok v) :
    withRetry fn o = ⟨Outcome.ok v, 1, [], []⟩ :=
  withRetry_firstSuccess fn o v hmr hf

/-- An operation whose first invocation succeeds with 42. -/
def fnOk : Nat → Outcome Nat := fun _ => Outcome.ok 42

/-- Witness for C7 under the default options. -/
theorem claim7_witness :
    (0 : Int) ≤ ({} : RetryOptions).maxRetries ∧
    withRetry fnOk {} = ⟨Outcome.ok 42, 1, [], []⟩ :=
  ⟨by decide, claim7_first_success fnOk {} 42 (by decide) rfl⟩

/-- Claim C8: with a negative `maxRetries` (malformed configuration) the
loop exits without an explicit return — the operation is never invoked,
nothing is slept or logged — and `withRetry` propagates the content of
the last-failure slot, which still holds its initial `undefined`. -/
theorem claim8_negative_budget {T : Type} (fn : Nat → Outcome T) (o : RetryOptions)
    (h : o.maxRetries < 0) :
    withRetry fn o = ⟨Outcome.err JSValue.undef, 0, [], []⟩ :=
  withRetry_negBudget fn o h

/-- Options with the malformed budget -1. -/
def optsNeg : RetryOptions := {maxRetries := -1}

/-- Witness for C8 at `maxRetries = -1`. -/
theorem claim8_witness :
    optsNeg.maxRetries < 0 ∧
    withRetry fn503 optsNeg = ⟨Outcome.err JSValue.undef, 0, [], []⟩ :=
  ⟨by decide, claim8_negative_budget fn503 optsNeg (by decide)⟩

/-- Claim C9: a thrown value that is not an object (hence also not an
`Error` instance) — for example a thrown string containing "timeout" —
is never accepted by the default retryability predicate, so `withRetry`
with the default predicate propagates it after exactly one invocation;
message-substring matching applies only to `Error` instances. -/
theorem claim9_non_object_not_retryable :
    (∀ e : JSValue, isObject e = false → defaultIsRetryable e = false) ∧
    (∀ (s : String) (fn : Nat → Outcome Nat) (o : RetryOptions),
      0 ≤ o.maxRetries → o.isRetryable = defaultIsRetryable →
      fn 0 = Outcome.err (JSValue.str s) →
      withRetry fn o = ⟨Outcome.err (JSValue.str s), 1, [], []⟩) := by
  have hbase : ∀ e : JSValue, isObject e = false → defaultIsRetryable e = false := by
    intro e h
    unfold defaultIsRetryable
    rw [h, errMessage_none_of_not_obj e h]
    simp [retryableMessage]
  refine ⟨hbase, fun s fn o hmr hdef hf => ?_⟩
  apply withRetry_nonretryable fn o _ hmr hf
  rw [hdef]
  exact hbase (JSValue.str s) rfl

/-- An operation that throws the bare string "connection timeout". -/
def fnThrowString : Nat → Outcome Nat :=
  fun _ => Outcome.err (JSValue.str "connection timeout")

/-- Witness for C9: the thrown string "connection timeout" contains
"timeout" but is not retryable and is propagated after one invocation. -/
theorem claim9_witness :
    isObject (JSValue.str "connection timeout") = false ∧
    defaultIsRetryable (JSValue.str "connection timeout") = false ∧
    strIncludes (jsToLower "connection timeout") "timeout" = true ∧
    withRetry fnThrowString {} =
      ⟨Outcome.err (JSValue.str "connection timeout"), 1, [], []⟩ :=
  ⟨rfl, claim9_non_object_not_retryable.1 (JSValue.str "connection timeout") rfl,
   by decide,
   claim9_non_object_not_retryable.2 "connection timeout" fnThrowString {}
     (by decide) rfl rfl⟩

/-- A retryable failure with a negative numeric retry-after hint. -/
def errNegHint : JSValue :=
  JSValue.obj [("status", JSValue.num 429),
               ("headers", JSValue.obj [("retry-after", JSValue.num (-3))] none)] none

/-- A retryable failure whose retry-after hint is the string "-3". -/
def errStrNegHint : JSValue :=
  JSValue.obj [("status", JSValue.num 429),
               ("headers", JSValue.obj [("retry-after", JSValue.str "-3")] none)] none

/-- A retryable failure with a zero retry-after hint. -/
def errZeroHint : JSValue :=
  JSValue.obj [("status", JSValue.num 429),
               ("headers", JSValue.obj [("retry-after", JSValue.num 0)] none)] none

/-- Options with a retry budget of 1 and defaults otherwise. -/
def optsOne : RetryOptions := {maxRetries := 1}

/-- Claim C10: the computed delay has no lower bound of zero: a negative
retry-after header (numeric `-3` or the string "-3") yields the hint
-3000 ms and the delay actually used is -3000 (the `min` with
`maxDelayMs` does not clamp from below), and a hint of 0 is honoured as
a zero delay rather than treated as absent. -/
theorem claim10_no_lower_clamp :
    defaultGetRetryAfterMs errNegHint = some (-3000) ∧
    defaultGetRetryAfterMs errStrNegHint = some (-3000) ∧
    (withRetry (fun _ => Outcome.err errNegHint : Nat → Outcome Nat) optsOne).delays
      = [-3000] ∧
    defaultGetRetryAfterMs errZeroHint = some 0 ∧
    (withRetry (fun _ => Outcome.err errZeroHint : Nat → Outcome Nat) optsOne).delays
      = [0] := by
  refine ⟨by decide, by decide, by decide, by decide, by decide⟩
